import Mathlib

/-! Verification of the high-frequency power sampling scripts
    (idle_cpu.py and idle_gpu.py): a shallow embedding of the
    counter-delta computation with wraparound handling, the per-tick
    power row assembly, the drift-compensated sleep computation, the
    buffered CSV sink with its status reporting, and the main sampling
    loop. Wall-clock instants and power values are modelled as exact
    rationals; energy counter readings are integers, with a failed read
    represented as none. -/

namespace PowerProfiler

/-- Wraparound-safe energy delta, from idle_cpu.py lines 193-196:
the raw difference curr - prev, with max_range added when negative. -/
def energyDiff (prev curr maxRange : ℤ) : ℤ :=
  if curr - prev < 0 then curr - prev + maxRange else curr - prev

/-- Rounding a rational to n decimal places, modelling round(x, n)
applied to the exact value (ties are not distinguished here). -/
def roundTo (n : ℕ) (x : ℚ) : ℚ :=
  ((round (x * 10 ^ n) : ℤ) : ℚ) / 10 ^ n

/-- Divisor of the power computation, idle_cpu.py line 200:
actual_interval = current_time - sample_start + args.interval, where
both time captures happen inside the current tick. -/
def actualInterval (sampleStart currentTime interval : ℚ) : ℚ :=
  currentTime - sampleStart + interval

/-- One domain's power cell of a row, idle_cpu.py lines 190-204:
none unless both the previous and the current reading are present,
otherwise the rounded watts value. -/
def powerValue (prev curr : Option ℤ) (maxRange : ℤ)
    (sampleStart currentTime interval : ℚ) : Option ℚ :=
  match prev, curr with
  | some p, some c =>
      some (roundTo 3 (((energyDiff p c maxRange : ℤ) : ℚ) / 1000000 /
        actualInterval sampleStart currentTime interval))
  | _, _ => none

/-- Power cells for all domains in order (the for-loop over domains at
idle_cpu.py lines 190-204), zipping previous readings, current readings
and the cached per-domain max energy ranges. -/
def powersFor (sampleStart currentTime interval : ℚ) :
    List (Option ℤ) → List (Option ℤ) → List ℤ → List (Option ℚ)
  | p :: ps, c :: cs, m :: ms =>
      powerValue p c m sampleStart currentTime interval ::
        powersFor sampleStart currentTime interval ps cs ms
  | _, _, _ => []

/-- Run configuration: the parsed arguments plus the per-domain cached
max energy ranges and the recorded start time. -/
structure Config where
  interval : ℚ
  duration : ℤ
  bufferSize : ℕ
  maxEnergy : List ℤ
  startTime : ℚ
deriving DecidableEq

/-- The wall-clock instants observed during one tick (the successive
time.time() calls at idle_cpu.py lines 171, 174 and 220) together with
the energy readings returned by read_energy_values for that tick. -/
structure TickInput where
  sampleStart : ℚ
  currentTime : ℚ
  statusTime : ℚ
  readings : List (Option ℤ)
deriving DecidableEq

/-- One output row: elapsed seconds (rounded to microseconds) and the
per-domain power columns. The ISO timestamp string is not modelled. -/
structure Sample where
  elapsedSeconds : ℚ
  powers : List (Option ℚ)
deriving DecidableEq

/-- Mutable state of the sampling loop: last readings, the in-memory
buffer, the rows already written to the CSV file, the sample counter,
and the status-reporting state. -/
structure LoopState where
  prevEnergy : List (Option ℤ)
  buffer : List Sample
  written : List Sample
  samples : ℕ
  lastStatusTime : ℚ
  statusReports : ℕ
deriving DecidableEq

/-- Loop-exit condition of idle_cpu.py line 177: a positive duration
limit that the elapsed time has reached. -/
def breakCond (cfg : Config) (t : TickInput) : Prop :=
  0 < cfg.duration ∧ (cfg.duration : ℚ) ≤ t.currentTime - cfg.startTime

instance (cfg : Config) (t : TickInput) : Decidable (breakCond cfg t) := by
  unfold breakCond
  exact instDecidableAnd

/-- The row assembled during one tick, idle_cpu.py lines 185-204. -/
def tickRow (cfg : Config) (s : LoopState) (t : TickInput) : Sample :=
  { elapsedSeconds := roundTo 6 (t.currentTime - cfg.startTime)
    powers := powersFor t.sampleStart t.currentTime cfg.interval
      s.prevEnergy t.readings cfg.maxEnergy }

/-- State after one non-breaking tick, idle_cpu.py lines 181-226:
update prev_energy, append the row to the buffer, bump the counter,
then flush (and possibly report status) when the buffer has reached the
configured size. -/
def afterTick (cfg : Config) (s : LoopState) (t : TickInput) : LoopState :=
  let row := tickRow cfg s t
  let s1 : LoopState :=
    { s with prevEnergy := t.readings, buffer := s.buffer ++ [row],
             samples := s.samples + 1 }
  if cfg.bufferSize ≤ s1.buffer.length then
    let s2 : LoopState :=
      { s1 with written := s1.written ++ s1.buffer, buffer := [] }
    if (5 : ℚ) ≤ t.statusTime - s.lastStatusTime then
      { s2 with statusReports := s2.statusReports + 1,
                lastStatusTime := t.statusTime }
    else s2
  else s1

/-- One iteration of the while loop: none means the duration limit was
reached and the loop breaks before reading. -/
def tickStep (cfg : Config) (s : LoopState) (t : TickInput) : Option LoopState :=
  if breakCond cfg t then none else some (afterTick cfg s t)

/-- The sampling loop run over a trace of tick inputs, stopping at the
first tick whose duration check fires (or when the trace ends, which
models an interrupt). -/
def runFrom (cfg : Config) : LoopState → List TickInput → LoopState
  | s, [] => s
  | s, t :: ts =>
      match tickStep cfg s t with
      | none => s
      | some s' => runFrom cfg s' ts

/-- Loop entry state, idle_cpu.py lines 150-168: prev_energy from the
initial read, empty buffer, zero samples, last_status_time = start. -/
def initState (cfg : Config) (prev0 : List (Option ℤ)) : LoopState :=
  { prevEnergy := prev0, buffer := [], written := [], samples := 0,
    lastStatusTime := cfg.startTime, statusReports := 0 }

/-- All rows the run has produced, in order: the rows already written
followed by the rows still buffered. After the final flush at loop exit
(idle_cpu.py lines 237-239) this is exactly the content of the file. -/
def allRows (s : LoopState) : List Sample := s.written ++ s.buffer

/-- Drift-compensating sleep computation, idle_cpu.py line 230. -/
def sleepTime (interval sampleTime : ℚ) : ℚ := max 0 (interval - sampleTime)

/-- Rate formula in the specification's words: (delta / unit_scale)
divided by the measured elapsed wall time since the previous tick,
rounded to 3 decimal places. Kept separate from powerValue so the two
can be compared. -/
def specRate (delta : ℤ) (measuredInterval : ℚ) : ℚ :=
  roundTo 3 ((delta : ℚ) / 1000000 / measuredInterval)

/-- A failed previous reading yields a none power cell. -/
lemma powerValue_none_left (c : Option ℤ) (m : ℤ) (ss ct iv : ℚ) :
    powerValue none c m ss ct iv = none := by
  cases c <;> rfl

/-- A failed current reading yields a none power cell. -/
lemma powerValue_none_right (p : Option ℤ) (m : ℤ) (ss ct iv : ℚ) :
    powerValue p none m ss ct iv = none := by
  cases p <;> rfl

/-- Indexing into the per-domain power list: the cell at index i is the
powerValue of the inputs at index i. -/
lemma powersFor_getElem? (ss ct iv : ℚ) :
    ∀ (ps cs : List (Option ℤ)) (ms : List ℤ) (i : ℕ) (p c : Option ℤ) (m : ℤ),
      ps[i]? = some p → cs[i]? = some c → ms[i]? = some m →
      (powersFor ss ct iv ps cs ms)[i]? = some (powerValue p c m ss ct iv)
  | [], _, _, i, p, c, m, hp, _, _ => by simp at hp
  | _ :: _, [], _, i, p, c, m, _, hc, _ => by simp at hc
  | _ :: _, _ :: _, [], i, p, c, m, _, _, hm => by simp at hm
  | a :: ps, b :: cs, d :: ms, 0, p, c, m, hp, hc, hm => by
      simp only [List.getElem?_cons_zero, Option.some_inj] at hp hc hm
      subst hp; subst hc; subst hm
      simp [powersFor]
  | a :: ps, b :: cs, d :: ms, j + 1, p, c, m, hp, hc, hm => by
      simp only [List.getElem?_cons_succ] at hp hc hm
      simpa [powersFor] using
        powersFor_getElem? ss ct iv ps cs ms j p c m hp hc hm

/-- After a non-breaking tick, the overall row sequence grows by
exactly the new row, whether or not a flush occurred. -/
lemma allRows_afterTick (cfg : Config) (s : LoopState) (t : TickInput) :
    allRows (afterTick cfg s t) = allRows s ++ [tickRow cfg s t] := by
  simp only [afterTick, allRows]
  split_ifs <;> simp

/-- After a non-breaking tick the sample counter grows by one. -/
lemma samples_afterTick (cfg : Config) (s : LoopState) (t : TickInput) :
    (afterTick cfg s t).samples = s.samples + 1 := by
  simp only [afterTick]
  split_ifs <;> rfl

/-- After a non-breaking tick the stored previous readings are exactly
this tick's readings (idle_cpu.py line 207). -/
lemma prevEnergy_afterTick (cfg : Config) (s : LoopState) (t : TickInput) :
    (afterTick cfg s t).prevEnergy = t.readings := by
  simp only [afterTick]
  split_ifs <;> rfl

/-- When the duration check does not fire, the tick completes. -/
lemma tickStep_eq_some (cfg : Config) (s : LoopState) (t : TickInput)
    (h : ¬ breakCond cfg t) : tickStep cfg s t = some (afterTick cfg s t) := by
  unfold tickStep
  exact if_neg h

/-- C1: for readings strictly below the wrap bound, the delta is
curr - prev when curr is at least prev, curr - prev + max_value when
the counter wrapped, and it always lies in the interval from 0
(inclusive) to max_value (exclusive). -/
theorem C1_delta_wraparound (prev curr M : ℤ) (h1 : 0 ≤ prev) (h2 : prev < M)
    (h3 : 0 ≤ curr) (h4 : curr < M) :
    (prev ≤ curr → energyDiff prev curr M = curr - prev) ∧
    (curr < prev → energyDiff prev curr M = curr - prev + M) ∧
    0 ≤ energyDiff prev curr M ∧ energyDiff prev curr M < M := by
  unfold energyDiff
  split <;> omega

/-- Witness for C1 at prev = 10, curr = 3, max_value = 100. -/
theorem C1_delta_wraparound_witness :
    ((10 : ℤ) ≤ 3 → energyDiff 10 3 100 = 3 - 10) ∧
    ((3 : ℤ) < 10 → energyDiff 10 3 100 = 3 - 10 + 100) ∧
    0 ≤ energyDiff 10 3 100 ∧ energyDiff 10 3 100 < 100 :=
  C1_delta_wraparound 10 3 100 (by decide) (by decide) (by decide) (by decide)

/-- C2 fails as stated: at prev = 4000000000, curr = 1000000,
max_value = 4294967296 the computed delta is not 1296967296. -/
theorem C2_delta_scenario_counterexample :
    energyDiff 4000000000 1000000 4294967296 ≠ 1296967296 := by decide

/-- C2 amended: at prev = 4000000000, curr = 1000000,
max_value = 4294967296 the computed delta is 295967296. -/
theorem C2_delta_scenario_amended :
    energyDiff 4000000000 1000000 4294967296 = 295967296 := by decide

/-- C3: when the previous or the current reading of a domain is absent,
that domain's power cell in the tick's row is none (never zero), and
the tick still completes and appends its sample to the run's rows. -/
theorem C3_missing_reading_gives_none (cfg : Config) (s : LoopState)
    (t : TickInput) (i : ℕ) (hbrk : ¬ breakCond cfg t)
    (hp : i < s.prevEnergy.length) (hc : i < t.readings.length)
    (hm : i < cfg.maxEnergy.length)
    (hnone : s.prevEnergy[i]? = some none ∨ t.readings[i]? = some none) :
    tickStep cfg s t = some (afterTick cfg s t) ∧
    allRows (afterTick cfg s t) = allRows s ++ [tickRow cfg s t] ∧
    (tickRow cfg s t).powers[i]? = some none := by
  refine ⟨tickStep_eq_some cfg s t hbrk, allRows_afterTick cfg s t, ?_⟩
  have hpow : (tickRow cfg s t).powers =
      powersFor t.sampleStart t.currentTime cfg.interval
        s.prevEnergy t.readings cfg.maxEnergy := rfl
  obtain ⟨p, hp'⟩ : ∃ p, s.prevEnergy[i]? = some p :=
    ⟨s.prevEnergy[i], List.getElem?_eq_getElem hp⟩
  obtain ⟨c, hc'⟩ : ∃ c, t.readings[i]? = some c :=
    ⟨t.readings[i], List.getElem?_eq_getElem hc⟩
  obtain ⟨m, hm'⟩ : ∃ m, cfg.maxEnergy[i]? = some m :=
    ⟨cfg.maxEnergy[i], List.getElem?_eq_getElem hm⟩
  rw [hpow, powersFor_getElem? t.sampleStart t.currentTime cfg.interval
    s.prevEnergy t.readings cfg.maxEnergy i p c m hp' hc' hm']
  rcases hnone with h | h
  · rw [hp'] at h
    cases Option.some_inj.1 h
    rw [powerValue_none_left]
  · rw [hc'] at h
    cases Option.some_inj.1 h
    rw [powerValue_none_right]

/-- Witness for C3: two domains, the first read succeeds (curr = 100),
the second fails; the second power cell of the row is none and the tick
still completes. -/
theorem C3_missing_reading_gives_none_witness :
    tickStep ⟨1/100, 0, 1000, [2^32, 2^32], 0⟩
        (initState ⟨1/100, 0, 1000, [2^32, 2^32], 0⟩ [some 0, some 0])
        ⟨1/100, 1/100, 1/100, [some 100, none]⟩ =
      some (afterTick ⟨1/100, 0, 1000, [2^32, 2^32], 0⟩
        (initState ⟨1/100, 0, 1000, [2^32, 2^32], 0⟩ [some 0, some 0])
        ⟨1/100, 1/100, 1/100, [some 100, none]⟩) ∧
    allRows (afterTick ⟨1/100, 0, 1000, [2^32, 2^32], 0⟩
        (initState ⟨1/100, 0, 1000, [2^32, 2^32], 0⟩ [some 0, some 0])
        ⟨1/100, 1/100, 1/100, [some 100, none]⟩) =
      allRows (initState ⟨1/100, 0, 1000, [2^32, 2^32], 0⟩ [some 0, some 0]) ++
        [tickRow ⟨1/100, 0, 1000, [2^32, 2^32], 0⟩
          (initState ⟨1/100, 0, 1000, [2^32, 2^32], 0⟩ [some 0, some 0])
          ⟨1/100, 1/100, 1/100, [some 100, none]⟩] ∧
    (tickRow ⟨1/100, 0, 1000, [2^32, 2^32], 0⟩
        (initState ⟨1/100, 0, 1000, [2^32, 2^32], 0⟩ [some 0, some 0])
        ⟨1/100, 1/100, 1/100, [some 100, none]⟩).powers[1]? = some none :=
  C3_missing_reading_gives_none ⟨1/100, 0, 1000, [2^32, 2^32], 0⟩
    (initState ⟨1/100, 0, 1000, [2^32, 2^32], 0⟩ [some 0, some 0])
    ⟨1/100, 1/100, 1/100, [some 100, none]⟩ 1
    (by decide) (by decide) (by decide) (by decide) (by decide)

/-- C5 fails as stated: the divisor actual_interval is not clamped to
any positive epsilon. With the configured interval 0.01 and a clock
that steps back by 0.01 between the two time captures of a tick, the
divisor is exactly zero, and no positive lower bound holds for all
observed clock values. -/
theorem C5_no_clamp_counterexample :
    actualInterval (2/100) (1/100) (1/100) = 0 ∧
    ¬ (0 < actualInterval (2/100) (1/100) (1/100)) ∧
    ¬ (∃ ε : ℚ, 0 < ε ∧ ∀ ss ct iv : ℚ, ε ≤ actualInterval ss ct iv) := by
  refine ⟨by norm_num [actualInterval], by norm_num [actualInterval], ?_⟩
  rintro ⟨ε, hε, h⟩
  have h0 := h 0 0 0
  rw [actualInterval] at h0
  norm_num at h0
  exact absurd (lt_of_lt_of_le hε h0) (lt_irrefl 0)

/-- C5 amended: there is no epsilon clamp; instead the divisor
current_time - sample_start + interval is positive exactly when the
in-tick clock step stays above the negated configured interval, in
particular whenever the clock is monotone within the tick and the
configured interval is positive. -/
theorem C5_divisor_positive_amended (ss ct iv : ℚ) (h1 : ss ≤ ct)
    (h2 : 0 < iv) : 0 < actualInterval ss ct iv := by
  rw [actualInterval]
  linarith

/-- Witness for the amended C5 at sample_start = 0, current_time = 1,
interval = 1/100. -/
theorem C5_divisor_positive_amended_witness :
    0 < actualInterval 0 1 (1/100) :=
  C5_divisor_positive_amended 0 1 (1/100) (by norm_num) (by norm_num)

/-- C6: the computed sleep is max(0, interval - processing time); it is
never negative, it is zero whenever processing overran the interval
(no catch-up), and otherwise it is the exact remainder of the nominal
interval. -/
theorem C6_sleep_computation (interval pt : ℚ) :
    sleepTime interval pt = max 0 (interval - pt) ∧
    0 ≤ sleepTime interval pt ∧
    (interval ≤ pt → sleepTime interval pt = 0) ∧
    (pt ≤ interval → sleepTime interval pt = interval - pt) := by
  refine ⟨rfl, le_max_left 0 _, fun h => ?_, fun h => ?_⟩
  · rw [sleepTime, max_eq_left (by linarith)]
  · rw [sleepTime, max_eq_right (by linarith)]

/-- Witness for C6, the spec's scenario C: target 0.01 with processing
time 0.03 sleeps for 0. -/
theorem C6_sleep_computation_witness : sleepTime (1/100) (3/100) = 0 :=
  (C6_sleep_computation (1/100) (3/100)).2.2.1 (by norm_num)

/-- Configuration for the C4 scenario: nominal interval 0.01s, no
duration limit, buffer size 1000, one domain with the 2^32 bound,
start time 0. -/
def cfg4 : Config := ⟨1/100, 0, 1000, [2^32], 0⟩

/-- First tick of the C4 scenario: reads energy 0 at wall time 0. -/
def tick4a : TickInput := ⟨0, 0, 0, [some 0]⟩

/-- Second tick of the C4 scenario: starts 0.03s after the previous
tick (it overran) and reads energy 300 at wall time 0.03. -/
def tick4b : TickInput := ⟨3/100, 3/100, 3/100, [some 300]⟩

/-- C4 fails as stated: in a two-tick run whose second tick begins
0.03s after the first, the recorded power divides by the nominal
interval plus the in-tick offset (0.01s), giving 0.03 W, while the
claimed formula over the measured 0.03s elapsed since the previous
tick gives 0.01 W. -/
theorem C4_rate_divisor_counterexample :
    (allRows (runFrom cfg4 (initState cfg4 [some 0]) [tick4a, tick4b])).map
        Sample.powers = [[some 0], [some (3/100)]] ∧
    tick4b.currentTime - tick4a.currentTime = 3/100 ∧
    specRate 300 (tick4b.currentTime - tick4a.currentTime) = 1/100 ∧
    ((3 : ℚ)/100) ≠ 1/100 := by
  have hbrk1 : ¬ breakCond cfg4 tick4a := by simp [breakCond, cfg4]
  have hbrk2 : ¬ breakCond cfg4 tick4b := by simp [breakCond, cfg4]
  have hrun : runFrom cfg4 (initState cfg4 [some 0]) [tick4a, tick4b] =
      afterTick cfg4 (afterTick cfg4 (initState cfg4 [some 0]) tick4a)
        tick4b := by
    simp only [runFrom, tickStep_eq_some cfg4 _ tick4a hbrk1,
      tickStep_eq_some cfg4 _ tick4b hbrk2]
  have hP : ∀ (s : LoopState) (t : TickInput), (tickRow cfg4 s t).powers =
      powersFor t.sampleStart t.currentTime cfg4.interval
        s.prevEnergy t.readings cfg4.maxEnergy := fun s t => rfl
  have hrow1 : (tickRow cfg4 (initState cfg4 [some 0]) tick4a).powers =
      [some 0] := by
    rw [hP]
    show powersFor 0 0 (1/100) [some 0] [some 0] [2^32] = [some 0]
    norm_num [powersFor, powerValue, energyDiff, actualInterval, roundTo]
  have hrow2 : (tickRow cfg4 (afterTick cfg4 (initState cfg4 [some 0]) tick4a)
      tick4b).powers = [some (3/100)] := by
    rw [hP, prevEnergy_afterTick]
    show powersFor (3/100) (3/100) (1/100) [some 0] [some 300] [2^32] =
      [some (3/100)]
    norm_num [powersFor, powerValue, energyDiff, actualInterval, roundTo,
      round_eq]
  refine ⟨?_, by norm_num [tick4a, tick4b], ?_, by norm_num⟩
  · rw [hrun, allRows_afterTick, allRows_afterTick]
    have h0 : allRows (initState cfg4 [some 0]) = [] := rfl
    rw [h0]
    simp only [List.nil_append, List.map_append, List.map_cons, List.map_nil,
      List.singleton_append, hrow1, hrow2]
  · show specRate 300 (3/100 - 0) = 1/100
    norm_num [specRate, roundTo, round_eq]

/-- C4 amended: for a tick with both readings present, the recorded
power is round-to-3-places of (delta / 10^6) divided by
(current_time - sample_start + nominal interval), both time captures
lying inside the current tick, rather than by the measured wall-clock
time since the previous tick. -/
theorem C4_rate_divisor_amended (cfg : Config) (s : LoopState)
    (t : TickInput) (i : ℕ) (p c m : ℤ) (hbrk : ¬ breakCond cfg t)
    (hp : s.prevEnergy[i]? = some (some p))
    (hc : t.readings[i]? = some (some c))
    (hm : cfg.maxEnergy[i]? = some m) :
    tickStep cfg s t = some (afterTick cfg s t) ∧
    (tickRow cfg s t).powers[i]? =
      some (some (roundTo 3 ((energyDiff p c m : ℚ) / 1000000 /
        (t.currentTime - t.sampleStart + cfg.interval)))) := by
  refine ⟨tickStep_eq_some cfg s t hbrk, ?_⟩
  have hpow : (tickRow cfg s t).powers =
      powersFor t.sampleStart t.currentTime cfg.interval
        s.prevEnergy t.readings cfg.maxEnergy := rfl
  rw [hpow, powersFor_getElem? t.sampleStart t.currentTime cfg.interval
    s.prevEnergy t.readings cfg.maxEnergy i (some p) (some c) m hp hc hm]
  rfl

/-- Witness for the amended C4 in the two-tick scenario: the second
tick's power cell is 0.03 W, from the divisor 0 + 0.01. -/
theorem C4_rate_divisor_amended_witness :
    tickStep cfg4 (afterTick cfg4 (initState cfg4 [some 0]) tick4a) tick4b =
      some (afterTick cfg4 (afterTick cfg4 (initState cfg4 [some 0]) tick4a)
        tick4b) ∧
    (tickRow cfg4 (afterTick cfg4 (initState cfg4 [some 0]) tick4a)
        tick4b).powers[0]? =
      some (some (roundTo 3 ((energyDiff 0 300 (2^32) : ℚ) / 1000000 /
        (tick4b.currentTime - tick4b.sampleStart + cfg4.interval)))) :=
  C4_rate_divisor_amended cfg4 (afterTick cfg4 (initState cfg4 [some 0]) tick4a)
    tick4b 0 0 300 (2^32) (by decide) (by decide) (by decide) (by decide)

/-- C10: a failed read for a domain makes that domain's power cell none
in the failing tick, and, because the stored previous readings are
overwritten with the whole current mapping, also none in the next tick
whatever that tick reads for the domain. -/
theorem C10_failed_read_poisons_next_tick (cfg : Config) (s : LoopState)
    (t1 t2 : TickInput) (i : ℕ) (hb1 : ¬ breakCond cfg t1)
    (hfail : t1.readings[i]? = some none)
    (hp : i < s.prevEnergy.length) (hm : i < cfg.maxEnergy.length)
    (hc2 : i < t2.readings.length) :
    tickStep cfg s t1 = some (afterTick cfg s t1) ∧
    (afterTick cfg s t1).prevEnergy = t1.readings ∧
    (tickRow cfg s t1).powers[i]? = some none ∧
    (tickRow cfg (afterTick cfg s t1) t2).powers[i]? = some none := by
  obtain ⟨p, hp'⟩ : ∃ p, s.prevEnergy[i]? = some p :=
    ⟨s.prevEnergy[i], List.getElem?_eq_getElem hp⟩
  obtain ⟨m, hm'⟩ : ∃ m, cfg.maxEnergy[i]? = some m :=
    ⟨cfg.maxEnergy[i], List.getElem?_eq_getElem hm⟩
  obtain ⟨c2, hc2'⟩ : ∃ c, t2.readings[i]? = some c :=
    ⟨t2.readings[i], List.getElem?_eq_getElem hc2⟩
  refine ⟨tickStep_eq_some cfg s t1 hb1, prevEnergy_afterTick cfg s t1, ?_, ?_⟩
  · have hpow : (tickRow cfg s t1).powers =
        powersFor t1.sampleStart t1.currentTime cfg.interval
          s.prevEnergy t1.readings cfg.maxEnergy := rfl
    rw [hpow, powersFor_getElem? t1.sampleStart t1.currentTime cfg.interval
      s.prevEnergy t1.readings cfg.maxEnergy i p none m hp' hfail hm',
      powerValue_none_right]
  · have hpow : (tickRow cfg (afterTick cfg s t1) t2).powers =
        powersFor t2.sampleStart t2.currentTime cfg.interval
          (afterTick cfg s t1).prevEnergy t2.readings cfg.maxEnergy := rfl
    rw [hpow, prevEnergy_afterTick cfg s t1,
      powersFor_getElem? t2.sampleStart t2.currentTime cfg.interval
        t1.readings t2.readings cfg.maxEnergy i none c2 m hfail hc2' hm',
      powerValue_none_left]

/-- Witness for C10: one domain, the first tick's read fails, the
second tick's read succeeds with 500; both ticks' power cells are
none. -/
theorem C10_failed_read_poisons_next_tick_witness :
    tickStep ⟨1/100, 0, 1000, [2^32], 0⟩
        (initState ⟨1/100, 0, 1000, [2^32], 0⟩ [some 0])
        ⟨1/100, 1/100, 1/100, [none]⟩ =
      some (afterTick ⟨1/100, 0, 1000, [2^32], 0⟩
        (initState ⟨1/100, 0, 1000, [2^32], 0⟩ [some 0])
        ⟨1/100, 1/100, 1/100, [none]⟩) ∧
    (afterTick ⟨1/100, 0, 1000, [2^32], 0⟩
        (initState ⟨1/100, 0, 1000, [2^32], 0⟩ [some 0])
        ⟨1/100, 1/100, 1/100, [none]⟩).prevEnergy = [none] ∧
    (tickRow ⟨1/100, 0, 1000, [2^32], 0⟩
        (initState ⟨1/100, 0, 1000, [2^32], 0⟩ [some 0])
        ⟨1/100, 1/100, 1/100, [none]⟩).powers[0]? = some none ∧
    (tickRow ⟨1/100, 0, 1000, [2^32], 0⟩
        (afterTick ⟨1/100, 0, 1000, [2^32], 0⟩
          (initState ⟨1/100, 0, 1000, [2^32], 0⟩ [some 0])
          ⟨1/100, 1/100, 1/100, [none]⟩)
        ⟨2/100, 2/100, 2/100, [some 500]⟩).powers[0]? = some none :=
  C10_failed_read_poisons_next_tick ⟨1/100, 0, 1000, [2^32], 0⟩
    (initState ⟨1/100, 0, 1000, [2^32], 0⟩ [some 0])
    ⟨1/100, 1/100, 1/100, [none]⟩ ⟨2/100, 2/100, 2/100, [some 500]⟩ 0
    (by decide) (by decide) (by decide) (by decide) (by decide)

/-- Rounding to n decimal places never exceeds an integer bound that
the argument is strictly below. -/
lemma roundTo_le_intCast (n : ℕ) {x : ℚ} {d : ℤ} (h : x < (d : ℚ)) :
    roundTo n x ≤ (d : ℚ) := by
  have h10 : (0 : ℚ) < 10 ^ n := by positivity
  rw [roundTo, div_le_iff₀ h10]
  have hfl : round (x * 10 ^ n) ≤ d * 10 ^ n := by
    rw [round_eq]
    have hlt : ⌊x * 10 ^ n + 1/2⌋ < d * 10 ^ n + 1 := by
      apply Int.floor_lt.2
      push_cast
      nlinarith [mul_lt_mul_of_pos_right h h10]
    omega
  calc ((round (x * 10 ^ n) : ℤ) : ℚ) ≤ ((d * 10 ^ n : ℤ) : ℚ) := by
        exact_mod_cast hfl
    _ = (d : ℚ) * 10 ^ n := by push_cast; ring

/-- Rounding to n decimal places is monotone. -/
lemma roundTo_mono (n : ℕ) {x y : ℚ} (h : x ≤ y) : roundTo n x ≤ roundTo n y := by
  have h10 : (0 : ℚ) < 10 ^ n := by positivity
  have hfl : round (x * 10 ^ n) ≤ round (y * 10 ^ n) := by
    rw [round_eq, round_eq]
    exact Int.floor_mono (by nlinarith [mul_le_mul_of_nonneg_right h h10.le])
  rw [roundTo, roundTo, div_le_div_iff₀ h10 h10]
  have hcast : ((round (x * 10 ^ n) : ℤ) : ℚ) ≤ ((round (y * 10 ^ n) : ℤ) : ℚ) := by
    exact_mod_cast hfl
  nlinarith

instance : IsTrans TickInput (fun a b => a.currentTime ≤ b.currentTime) :=
  ⟨fun _ _ _ h1 h2 => le_trans h1 h2⟩

/-- The elapsed-seconds column produced by a run: the loop processes
exactly the longest prefix of the tick trace on which the duration
check does not fire, and each processed tick contributes the rounded
elapsed time of its second time capture. -/
lemma elapsed_allRows_runFrom (cfg : Config) :
    ∀ (ts : List TickInput) (s : LoopState),
      (allRows (runFrom cfg s ts)).map Sample.elapsedSeconds =
        (allRows s).map Sample.elapsedSeconds ++
          (ts.takeWhile (fun t => decide (¬ breakCond cfg t))).map
            (fun t => roundTo 6 (t.currentTime - cfg.startTime))
  | [], s => by simp [runFrom]
  | t :: ts, s => by
      by_cases hb : breakCond cfg t
      · have hstep : tickStep cfg s t = none := by
          simp [tickStep, hb]
        have htw : (t :: ts).takeWhile (fun u => decide (¬ breakCond cfg u)) =
            [] := by
          rw [List.takeWhile_cons]
          simp [hb]
        have hrw : runFrom cfg s (t :: ts) = s := by
          simp [runFrom, hstep]
        rw [hrw, htw]
        simp
      · have hstep : tickStep cfg s t = some (afterTick cfg s t) :=
          tickStep_eq_some cfg s t hb
        have htw : (t :: ts).takeWhile (fun u => decide (¬ breakCond cfg u)) =
            t :: ts.takeWhile (fun u => decide (¬ breakCond cfg u)) := by
          simp [List.takeWhile_cons, hb]
        have hrw : runFrom cfg s (t :: ts) = runFrom cfg (afterTick cfg s t) ts := by
          simp [runFrom, hstep]
        rw [hrw, elapsed_allRows_runFrom cfg ts (afterTick cfg s t),
          allRows_afterTick, htw]
        simp [tickRow]

/-- C7: in a run with a positive duration limit over a trace whose
tick times are non-decreasing, every emitted row's elapsed seconds is
at most the limit (the duration check fires before the reading), and
the elapsed-seconds column is non-decreasing across the run. -/
theorem C7_duration_bound_and_monotone (cfg : Config)
    (prev0 : List (Option ℤ)) (ts : List TickInput)
    (hdur : 0 < cfg.duration)
    (hmono : ts.Chain' (fun a b => a.currentTime ≤ b.currentTime)) :
    (∀ r ∈ allRows (runFrom cfg (initState cfg prev0) ts),
        r.elapsedSeconds ≤ (cfg.duration : ℚ)) ∧
    (allRows (runFrom cfg (initState cfg prev0) ts)).Chain'
      (fun a b => a.elapsedSeconds ≤ b.elapsedSeconds) := by
  have hmap := elapsed_allRows_runFrom cfg ts (initState cfg prev0)
  have h0 : allRows (initState cfg prev0) = [] := rfl
  rw [h0] at hmap
  simp only [List.map_nil, List.nil_append] at hmap
  constructor
  · intro r hr
    have hmem : r.elapsedSeconds ∈
        (allRows (runFrom cfg (initState cfg prev0) ts)).map
          Sample.elapsedSeconds :=
      List.mem_map_of_mem _ hr
    rw [hmap] at hmem
    obtain ⟨t, ht, hte⟩ := List.mem_map.1 hmem
    have hbt : ¬ breakCond cfg t := by
      simpa using List.mem_takeWhile_imp ht
    have hlt : t.currentTime - cfg.startTime < (cfg.duration : ℚ) := by
      by_contra hge
      exact hbt ⟨hdur, le_of_not_lt hge⟩
    rw [← hte]
    exact roundTo_le_intCast 6 hlt
  · have hch : List.Chain' (fun a b : ℚ => a ≤ b)
        ((allRows (runFrom cfg (initState cfg prev0) ts)).map
          Sample.elapsedSeconds) := by
      rw [hmap, List.chain'_map]
      have hsub :
          List.Sublist (ts.takeWhile (fun t => decide (¬ breakCond cfg t))) ts :=
        List.takeWhile_sublist _
      have htk : (ts.takeWhile (fun t => decide (¬ breakCond cfg t))).Chain'
          (fun a b => a.currentTime ≤ b.currentTime) :=
        hmono.sublist hsub
      exact htk.imp fun a b hab =>
        roundTo_mono 6 (by linarith)
    exact (List.chain'_map Sample.elapsedSeconds).1 hch

/-- Witness for C7: duration limit 10 over three monotone ticks. -/
theorem C7_duration_bound_and_monotone_witness :
    (∀ r ∈ allRows (runFrom ⟨1/100, 10, 1000, [2^32], 0⟩
        (initState ⟨1/100, 10, 1000, [2^32], 0⟩ [some 0])
        [⟨1, 1, 1, [some 5]⟩, ⟨2, 2, 2, [some 9]⟩, ⟨11, 11, 11, [some 12]⟩]),
      r.elapsedSeconds ≤ ((10 : ℤ) : ℚ)) ∧
    (allRows (runFrom ⟨1/100, 10, 1000, [2^32], 0⟩
        (initState ⟨1/100, 10, 1000, [2^32], 0⟩ [some 0])
        [⟨1, 1, 1, [some 5]⟩, ⟨2, 2, 2, [some 9]⟩,
          ⟨11, 11, 11, [some 12]⟩])).Chain'
      (fun a b => a.elapsedSeconds ≤ b.elapsedSeconds) :=
  C7_duration_bound_and_monotone ⟨1/100, 10, 1000, [2^32], 0⟩ [some 0]
    [⟨1, 1, 1, [some 5]⟩, ⟨2, 2, 2, [some 9]⟩, ⟨11, 11, 11, [some 12]⟩]
    (by decide) (by norm_num [List.chain'_cons])

/-- A tick that leaves the buffer below the configured size neither
flushes nor touches the status-reporting state. -/
lemma afterTick_no_flush (cfg : Config) (s : LoopState) (t : TickInput)
    (h : s.buffer.length + 1 < cfg.bufferSize) :
    (afterTick cfg s t).statusReports = s.statusReports ∧
    (afterTick cfg s t).lastStatusTime = s.lastStatusTime ∧
    (afterTick cfg s t).buffer.length = s.buffer.length + 1 ∧
    (afterTick cfg s t).written = s.written ∧
    (afterTick cfg s t).samples = s.samples + 1 := by
  simp only [afterTick]
  have hc : ¬ (cfg.bufferSize ≤ (s.buffer ++ [tickRow cfg s t]).length) := by
    simp only [List.length_append, List.length_singleton]
    omega
  rw [if_neg hc]
  refine ⟨rfl, rfl, ?_, rfl, rfl⟩
  simp

/-- Configuration of the C8 run: one domain, nominal interval 1s, no
duration limit, buffer threshold 1000 samples, start time 0. -/
def cfg8 : Config := ⟨1, 0, 1000, [2^32], 0⟩

/-- Ticks of the C8 run at wall times 0, 6 and 12 seconds. -/
def tick8a : TickInput := ⟨0, 0, 0, [some 0]⟩

/-- Second tick of the C8 run, six seconds in. -/
def tick8b : TickInput := ⟨6, 6, 6, [some 10]⟩

/-- Third tick of the C8 run, twelve seconds in. -/
def tick8c : TickInput := ⟨12, 12, 12, [some 20]⟩

/-- C8 fails as stated: a run of three samples spanning twelve seconds
of wall-clock time whose buffer (threshold 1000) never fills issues no
status report at all, because the status check sits inside the flush
branch; the last-report clock still shows the start time, more than
five seconds before the final tick. -/
theorem C8_status_report_counterexample :
    (runFrom cfg8 (initState cfg8 [some 0]) [tick8a, tick8b, tick8c]).statusReports
        = 0 ∧
    (runFrom cfg8 (initState cfg8 [some 0]) [tick8a, tick8b, tick8c]).samples
        = 3 ∧
    (runFrom cfg8 (initState cfg8 [some 0]) [tick8a, tick8b, tick8c]).buffer.length
        = 3 ∧
    (3 : ℕ) < cfg8.bufferSize ∧
    (runFrom cfg8 (initState cfg8 [some 0]) [tick8a, tick8b, tick8c]).lastStatusTime
        = 0 ∧
    (5 : ℚ) ≤ tick8c.statusTime - 0 := by
  have hb1 : ¬ breakCond cfg8 tick8a := by simp [breakCond, cfg8]
  have hb2 : ¬ breakCond cfg8 tick8b := by simp [breakCond, cfg8]
  have hb3 : ¬ breakCond cfg8 tick8c := by simp [breakCond, cfg8]
  have hrun : runFrom cfg8 (initState cfg8 [some 0]) [tick8a, tick8b, tick8c] =
      afterTick cfg8 (afterTick cfg8 (afterTick cfg8
        (initState cfg8 [some 0]) tick8a) tick8b) tick8c := by
    simp only [runFrom, tickStep_eq_some cfg8 _ tick8a hb1,
      tickStep_eq_some cfg8 _ tick8b hb2, tickStep_eq_some cfg8 _ tick8c hb3]
  set s0 := initState cfg8 [some 0] with hs0
  have h1 := afterTick_no_flush cfg8 s0 tick8a (by simp [hs0, initState, cfg8])
  have h2 := afterTick_no_flush cfg8 (afterTick cfg8 s0 tick8a) tick8b
    (by rw [h1.2.2.1]; simp [hs0, initState, cfg8])
  have h3 := afterTick_no_flush cfg8
    (afterTick cfg8 (afterTick cfg8 s0 tick8a) tick8b) tick8c
    (by rw [h2.2.2.1, h1.2.2.1]; simp [hs0, initState, cfg8])
  rw [hrun]
  refine ⟨?_, ?_, ?_, by norm_num [cfg8], ?_, by norm_num [tick8c]⟩
  · rw [h3.1, h2.1, h1.1]
    rfl
  · rw [h3.2.2.2.2, h2.2.2.2.2, h1.2.2.2.2]
    rfl
  · rw [h3.2.2.1, h2.2.2.1, h1.2.2.1]
    rfl
  · rw [h3.2.1, h2.2.1, h1.2.1]
    rfl

/-- C8 amended: a status report is only ever considered right after a
buffer flush; on a non-flushing tick the report count and the
last-report clock are untouched, and on a flushing tick a report is
issued exactly when at least five seconds have passed since the last
report. -/
theorem C8_status_report_amended (cfg : Config) (s : LoopState)
    (t : TickInput) :
    (s.buffer.length + 1 < cfg.bufferSize →
      (afterTick cfg s t).statusReports = s.statusReports ∧
      (afterTick cfg s t).lastStatusTime = s.lastStatusTime) ∧
    (cfg.bufferSize ≤ s.buffer.length + 1 →
      ((5 : ℚ) ≤ t.statusTime - s.lastStatusTime →
        (afterTick cfg s t).statusReports = s.statusReports + 1 ∧
        (afterTick cfg s t).lastStatusTime = t.statusTime) ∧
      (t.statusTime - s.lastStatusTime < 5 →
        (afterTick cfg s t).statusReports = s.statusReports ∧
        (afterTick cfg s t).lastStatusTime = s.lastStatusTime)) := by
  constructor
  · intro h
    exact ⟨(afterTick_no_flush cfg s t h).1, (afterTick_no_flush cfg s t h).2.1⟩
  · intro h
    have hc : cfg.bufferSize ≤ (s.buffer ++ [tickRow cfg s t]).length := by
      simp only [List.length_append, List.length_singleton]
      omega
    constructor
    · intro h5
      simp only [afterTick]
      rw [if_pos hc, if_pos h5]
      exact ⟨rfl, rfl⟩
    · intro h5
      simp only [afterTick]
      rw [if_pos hc, if_neg (not_le.2 h5)]
      exact ⟨rfl, rfl⟩

/-- Witness for the amended C8: with buffer threshold 1 a tick flushes
immediately, and with six seconds since the last report it issues a
status report and resets the report clock. -/
theorem C8_status_report_amended_witness :
    (afterTick ⟨1, 0, 1, [2^32], 0⟩
        (initState ⟨1, 0, 1, [2^32], 0⟩ [some 0])
        ⟨6, 6, 6, [some 10]⟩).statusReports =
      (initState ⟨1, 0, 1, [2^32], 0⟩ [some 0]).statusReports + 1 ∧
    (afterTick ⟨1, 0, 1, [2^32], 0⟩
        (initState ⟨1, 0, 1, [2^32], 0⟩ [some 0])
        ⟨6, 6, 6, [some 10]⟩).lastStatusTime = 6 :=
  ((C8_status_report_amended ⟨1, 0, 1, [2^32], 0⟩
      (initState ⟨1, 0, 1, [2^32], 0⟩ [some 0])
      ⟨6, 6, 6, [some 10]⟩).2 (by decide)).1 (by norm_num [initState])

/-- Length bookkeeping of the run: rows produced so far always match
the sample counter. -/
lemma allRows_length_runFrom (cfg : Config) :
    ∀ (ts : List TickInput) (s : LoopState),
      (allRows (runFrom cfg s ts)).length + s.samples =
        (runFrom cfg s ts).samples + (allRows s).length
  | [], s => by simp [runFrom, Nat.add_comm]
  | t :: ts, s => by
      by_cases hb : breakCond cfg t
      · have hstep : tickStep cfg s t = none := by simp [tickStep, hb]
        simp [runFrom, hstep, Nat.add_comm]
      · have hrw : runFrom cfg s (t :: ts) =
            runFrom cfg (afterTick cfg s t) ts := by
          simp [runFrom, tickStep_eq_some cfg s t hb]
        have ih := allRows_length_runFrom cfg ts (afterTick cfg s t)
        have hlen : (allRows (afterTick cfg s t)).length =
            (allRows s).length + 1 := by
          rw [allRows_afterTick]
          simp
        rw [hrw]
        rw [hlen, samples_afterTick] at ih
        omega

/-- C9: the sink appends each tick's row in order; a flush happens
exactly when the buffer has reached the configured size, moving the
whole buffer in order to the file and emptying it, and otherwise the
row stays buffered; across any run started from the loop entry state
the rows produced (written plus the remainder flushed at close) number
exactly the samples appended. -/
theorem C9_buffered_sink (cfg : Config) :
    (∀ (s : LoopState) (t : TickInput), ¬ breakCond cfg t →
      tickStep cfg s t = some (afterTick cfg s t) ∧
      allRows (afterTick cfg s t) = allRows s ++ [tickRow cfg s t] ∧
      (afterTick cfg s t).samples = s.samples + 1 ∧
      (cfg.bufferSize ≤ s.buffer.length + 1 →
        (afterTick cfg s t).written =
          s.written ++ (s.buffer ++ [tickRow cfg s t]) ∧
        (afterTick cfg s t).buffer = []) ∧
      (s.buffer.length + 1 < cfg.bufferSize →
        (afterTick cfg s t).written = s.written ∧
        (afterTick cfg s t).buffer = s.buffer ++ [tickRow cfg s t])) ∧
    (∀ (prev0 : List (Option ℤ)) (ts : List TickInput),
      (allRows (runFrom cfg (initState cfg prev0) ts)).length =
        (runFrom cfg (initState cfg prev0) ts).samples) := by
  constructor
  · intro s t hbrk
    refine ⟨tickStep_eq_some cfg s t hbrk, allRows_afterTick cfg s t,
      samples_afterTick cfg s t, ?_, ?_⟩
    · intro h
      have hc : cfg.bufferSize ≤ (s.buffer ++ [tickRow cfg s t]).length := by
        simp only [List.length_append, List.length_singleton]
        omega
      simp only [afterTick]
      rw [if_pos hc]
      split_ifs <;> exact ⟨rfl, rfl⟩
    · intro h
      have hc : ¬ (cfg.bufferSize ≤ (s.buffer ++ [tickRow cfg s t]).length) := by
        simp only [List.length_append, List.length_singleton]
        omega
      simp only [afterTick]
      rw [if_neg hc]
      exact ⟨rfl, rfl⟩
  · intro prev0 ts
    have h := allRows_length_runFrom cfg ts (initState cfg prev0)
    have h0 : (allRows (initState cfg prev0)).length = 0 := rfl
    have h1 : (initState cfg prev0).samples = 0 := rfl
    omega

/-- Witness for C9, the spec's scenario D shape: with buffer size 3 and
two rows already buffered, the next appended row triggers a flush that
writes the three rows in order and empties the buffer. -/
theorem C9_buffered_sink_witness :
    (afterTick ⟨1/100, 0, 3, [2^32], 0⟩
        ⟨[some 0], [⟨1, [some 0]⟩, ⟨2, [some 0]⟩], [], 2, 0, 0⟩
        ⟨3, 3, 3, [some 7]⟩).written =
      [] ++ ([⟨1, [some 0]⟩, ⟨2, [some 0]⟩] ++
        [tickRow ⟨1/100, 0, 3, [2^32], 0⟩
          ⟨[some 0], [⟨1, [some 0]⟩, ⟨2, [some 0]⟩], [], 2, 0, 0⟩
          ⟨3, 3, 3, [some 7]⟩]) ∧
    (afterTick ⟨1/100, 0, 3, [2^32], 0⟩
        ⟨[some 0], [⟨1, [some 0]⟩, ⟨2, [some 0]⟩], [], 2, 0, 0⟩
        ⟨3, 3, 3, [some 7]⟩).buffer = [] :=
  (((C9_buffered_sink ⟨1/100, 0, 3, [2^32], 0⟩).1
      ⟨[some 0], [⟨1, [some 0]⟩, ⟨2, [some 0]⟩], [], 2, 0, 0⟩
      ⟨3, 3, 3, [some 7]⟩ (by decide)).2.2.2.1 (by decide))

end PowerProfiler
